import Mathlib

/-!
Verification of the atom-dbro-chatty chat service core.

The repository contains two backend variants that the specification treats as
one system:

* the membership backend (`src/server/src/database/schema/index.ts`,
  `src/server/src/rooms/room-members.service.ts`,
  `MessagesService` in `src/server/src/messages/messages.module.ts`), whose
  rooms carry `ownerId`/`isActive` and which keeps a `room_members` table with
  an ACTIVE/BAN status per (room, user) pair; and

* the support-chat microservice (`src/server/src/database/schema/rooms.ts`,
  `src/server/src/rooms/rooms.service.ts`, `rooms.controller.ts`,
  `src/server/src/socket/socket.gateway.ts`,
  `src/server/src/auth/auth.service.ts`), whose rooms carry
  `createdBy`/`type`/`isPrivate` and whose messages carry
  `username`/`recipientId`/`createdAt`.

Both variants are embedded below over one combined database state.  Database
rows are Lean structures, tables are lists, uuid generation is modelled by a
`nextId` counter, `new Date()` timestamps are explicit `now : Nat` arguments,
and thrown Nest exceptions become `Except Err` results (an error aborts the
handler before any later write, exactly as a thrown exception does in the
source).  Foreign-key enforcement by the underlying store is not modelled;
every scenario below keeps the referenced room present.
-/

namespace Chatty

/-- Error taxonomy: the Nest exception classes thrown by the embedded code
(`NotFoundException`, `ForbiddenException`, `ConflictException`,
`UnauthorizedException`), each carrying its message string. -/
inductive Err where
  | notFound (msg : String)
  | forbidden (msg : String)
  | conflict (msg : String)
  | unauthorized (msg : String)
deriving DecidableEq, Repr

/-- Membership status enum `member_status` from
`src/server/src/database/schema/index.ts`. -/
inductive MemberStatus where
  | ACTIVE
  | BAN
deriving DecidableEq, Repr

/-- Row of the `rooms` table of the membership backend
(`src/server/src/database/schema/index.ts`): `ownerId` is non-null and the
table carries an `is_active` flag. -/
structure RoomA where
  id : String
  name : String
  ownerId : String
  isActive : Bool
deriving DecidableEq, Repr

/-- Row of the `room_members` table
(`src/server/src/database/schema/index.ts`); uuid primary keys are modelled
as naturals drawn from the `nextId` counter. -/
structure RoomMember where
  id : Nat
  roomId : String
  userId : String
  status : MemberStatus
  joinedIn : Nat
deriving DecidableEq, Repr

/-- Row of the `messages` table of the membership backend
(`src/server/src/database/schema/index.ts`): `userId` is non-null there. -/
structure MessageA where
  id : Nat
  roomId : String
  userId : String
  content : String
deriving DecidableEq, Repr

/-- Row of the `rooms` table of the support-chat microservice
(`src/server/src/database/schema/rooms.ts`). -/
structure RoomB where
  id : String
  name : String
  type : String
  isPrivate : Bool
  createdBy : Option String
deriving DecidableEq, Repr

/-- Row of the `messages` table of the support-chat microservice
(`src/server/src/database/schema/messages.ts`). -/
structure MessageB where
  id : Nat
  roomId : String
  userId : Option String
  recipientId : Option String
  username : String
  content : String
  createdAt : Nat
deriving DecidableEq, Repr

/-- Row of the `api_keys` table
(`src/server/src/database/schema/api-keys.ts`): `userId` is nullable, the
revocation flag is `isActive`.  Expiry and last-used stamps play no role in
the claims below and are omitted. -/
structure ApiKey where
  id : String
  key : String
  name : Option String
  userId : Option String
  isActive : Bool
deriving DecidableEq, Repr

/-- Row of the `users` table (`src/server/src/database/schema/users.ts`),
restricted to the columns the embedded handlers read. -/
structure UserRow where
  id : String
  username : String
deriving DecidableEq, Repr

/-- Combined database state: the tables of both backend variants.  `nextId`
feeds generated primary keys. -/
structure State where
  roomsA : List RoomA
  members : List RoomMember
  messagesA : List MessageA
  roomsB : List RoomB
  messagesB : List MessageB
  apiKeys : List ApiKey
  users : List UserRow
  nextId : Nat
deriving DecidableEq, Repr

/-- SELECT of a membership-backend room by id (`.where(eq(rooms.id, roomId)).limit(1)`). -/
def findRoomA (s : State) (roomId : String) : Option RoomA :=
  s.roomsA.find? (fun r => r.id == roomId)

/-- SELECT of a membership row by its composite key
(`.where(and(eq(roomMembers.roomId, roomId), eq(roomMembers.userId, userId))).limit(1)`). -/
def findMember (s : State) (roomId userId : String) : Option RoomMember :=
  s.members.find? (fun m => m.roomId == roomId && m.userId == userId)

/-- `RoomMembersService.joinRoom` (`src/server/src/rooms/room-members.service.ts`,
lines 20-65): room-existence check, then insert an ACTIVE row, lift a BAN row
to ACTIVE, or return the existing ACTIVE row unchanged. -/
def joinRoom (roomId userId : String) (now : Nat) (s : State) :
    Except Err (RoomMember × State) :=
  match findRoomA s roomId with
  | none => .error (.notFound "Room not found")
  | some _ =>
    match findMember s roomId userId with
    | some existingMember =>
      if existingMember.status = .BAN then
        let updated := { existingMember with status := .ACTIVE, joinedIn := now }
        .ok (updated,
          { s with members :=
              s.members.map (fun m => if m.id == existingMember.id then updated else m) })
      else
        .ok (existingMember, s)
    | none =>
      let member : RoomMember :=
        { id := s.nextId, roomId := roomId, userId := userId
          status := .ACTIVE, joinedIn := now }
      .ok (member, { s with members := s.members ++ [member], nextId := s.nextId + 1 })

/-- `RoomMembersService.leaveRoom` (`room-members.service.ts`, lines 67-91):
room-existence check, then DELETE of the matching membership rows; the source
throws `NotFoundException` when the DELETE returned no row. -/
def leaveRoom (roomId userId : String) (s : State) :
    Except Err (RoomMember × State) :=
  match findRoomA s roomId with
  | none => .error (.notFound "Room not found")
  | some _ =>
    match findMember s roomId userId with
    | none => .error (.notFound "User is not a member of this room")
    | some deleted =>
      .ok (deleted,
        { s with members :=
            s.members.filter (fun m => !(m.roomId == roomId && m.userId == userId)) })

/-- `RoomMembersService.banUser` (`room-members.service.ts`, lines 93-145):
room-existence check, owner check on the caller, owner-immunity check on the
target, then either a fresh BAN row or an UPDATE of the existing row. -/
def banUser (roomId userId bannedBy : String) (now : Nat) (s : State) :
    Except Err (RoomMember × State) :=
  match findRoomA s roomId with
  | none => .error (.notFound "Room not found")
  | some room =>
    if room.ownerId ≠ bannedBy then
      .error (.forbidden "Only room owner can ban users")
    else if userId = room.ownerId then
      .error (.conflict "Cannot ban room owner")
    else
      match findMember s roomId userId with
      | none =>
        let member : RoomMember :=
          { id := s.nextId, roomId := roomId, userId := userId
            status := .BAN, joinedIn := now }
        .ok (member, { s with members := s.members ++ [member], nextId := s.nextId + 1 })
      | some existingMember =>
        let updated := { existingMember with status := .BAN }
        .ok (updated,
          { s with members :=
              s.members.map (fun m => if m.id == existingMember.id then updated else m) })

/-- `RoomMembersService.unbanUser` (`room-members.service.ts`, lines 147-188). -/
def unbanUser (roomId userId unbannedBy : String) (s : State) :
    Except Err (RoomMember × State) :=
  match findRoomA s roomId with
  | none => .error (.notFound "Room not found")
  | some room =>
    if room.ownerId ≠ unbannedBy then
      .error (.forbidden "Only room owner can unban users")
    else
      match findMember s roomId userId with
      | none => .error (.notFound "User is not a member of this room")
      | some existingMember =>
        if existingMember.status ≠ .BAN then
          .error (.conflict "User is not banned")
        else
          let updated := { existingMember with status := .ACTIVE }
          .ok (updated,
            { s with members :=
                s.members.map (fun m => if m.id == existingMember.id then updated else m) })

/-- `RoomMembersService.getMemberStatus` (`room-members.service.ts`,
lines 190-203): the status of the matching row, or none. -/
def getMemberStatus (roomId userId : String) (s : State) : Option MemberStatus :=
  (findMember s roomId userId).map (fun m => m.status)

/-- `RoomMembersService.canSendMessage` (`room-members.service.ts`,
lines 205-208): `status === ACTIVE`. -/
def canSendMessage (roomId userId : String) (s : State) : Bool :=
  getMemberStatus roomId userId s == some .ACTIVE

/-- `MessagesService.create` (`src/server/src/messages/messages.module.ts`,
lines 90-120): room-existence check, membership gate via `canSendMessage`,
then INSERT of the message row. -/
def messagesCreate (roomId userId content : String) (s : State) :
    Except Err (MessageA × State) :=
  match findRoomA s roomId with
  | none => .error (.notFound "Room not found")
  | some _ =>
    if !canSendMessage roomId userId s then
      .error (.forbidden
        "You cannot send messages to this room. You may be banned or not a member.")
    else
      let message : MessageA :=
        { id := s.nextId, roomId := roomId, userId := userId, content := content }
      .ok (message,
        { s with messagesA := s.messagesA ++ [message], nextId := s.nextId + 1 })

/-- Scope string of `Scope.ALLOW_ALL` (`src/unnamed/part_019`). -/
def ALLOW_ALL : String := "allow-all"

/-- Scope string of `Scope.ALLOW_ALL_CHATS` (`src/unnamed/part_019`). -/
def ALLOW_ALL_CHATS : String := "allow-all-chats"

/-- Scope string referenced by `rooms.controller.ts` as
`Scope.ALLOW_CREATE_ROOMS`; the enum member is absent from the captured
scopes module, its string value is taken from the controller documentation
(`allow-create-rooms`). -/
def ALLOW_CREATE_ROOMS : String := "allow-create-rooms"

/-- `hasScope` (`src/unnamed/part_019`, lines 53-64): empty scope list denies,
`allow-all` grants everything, otherwise membership of the required scope. -/
def hasScope (userScopes : List String) (requiredScope : String) : Bool :=
  if userScopes.isEmpty then false
  else if userScopes.contains ALLOW_ALL then true
  else userScopes.contains requiredScope

/-- `hasAnyScope` (`src/unnamed/part_019`, lines 72-83). -/
def hasAnyScope (userScopes : List String) (requiredScopes : List String) : Bool :=
  if userScopes.isEmpty then false
  else if userScopes.contains ALLOW_ALL then true
  else requiredScopes.any (fun scope => userScopes.contains scope)

/-- `hasAllScopes` (`src/unnamed/part_019`, lines 91-102). -/
def hasAllScopes (userScopes : List String) (requiredScopes : List String) : Bool :=
  if userScopes.isEmpty then false
  else if userScopes.contains ALLOW_ALL then true
  else requiredScopes.all (fun scope => userScopes.contains scope)

/-- SELECT of a support-chat room by id (`RoomsService.findOne`,
`src/server/src/rooms/rooms.service.ts`, lines 207-216, sans the throw). -/
def findRoomB (s : State) (roomId : String) : Option RoomB :=
  s.roomsB.find? (fun r => r.id == roomId)

/-- `RoomsController.hasAccessToRoom` (`rooms.controller.ts`, lines 80-102):
JWT callers pass, `allow-all`/`allow-all-chats` pass, `allow-create-rooms`
restricts to rooms the api key owner created, anything else is denied. -/
def hasAccessToRoom (createdBy : Option String) (apiKey : Option ApiKey)
    (userScopes : List String) : Bool :=
  match apiKey with
  | none => true
  | some k =>
    if hasScope userScopes ALLOW_ALL || hasScope userScopes ALLOW_ALL_CHATS then true
    else if hasScope userScopes ALLOW_CREATE_ROOMS then createdBy == k.userId
    else false

/-- `RoomsService.createMessage` (`rooms.service.ts`, lines 264-276): an
unconditional INSERT of the message row; no room-state or membership check. -/
def createMessage (roomId : String) (userId recipientId : Option String)
    (username content : String) (now : Nat) (s : State) : MessageB × State :=
  let message : MessageB :=
    { id := s.nextId, roomId := roomId, userId := userId, recipientId := recipientId
      username := username, content := content, createdAt := now }
  (message, { s with messagesB := s.messagesB ++ [message], nextId := s.nextId + 1 })

/-- Session identity decoded from a user JWT (`request.user` /
`socket.userId`). -/
structure JwtUser where
  userId : String
  username : Option String
deriving DecidableEq, Repr

/-- `RoomsController.sendMessage` (`rooms.controller.ts`, lines 430-504):
room lookup, room-access check for api keys, sender resolution, then
`createMessage`.  The handler never consults the membership table.  Broadcast
to the socket room is a side effect outside the database state. -/
def sendMessage (roomId : String) (content : String)
    (bodyUsername bodyRecipientId : Option String)
    (user : Option JwtUser) (apiKey : Option ApiKey) (userScopes : List String)
    (now : Nat) (s : State) : Except Err (MessageB × State) :=
  match findRoomB s roomId with
  | none => .error (.notFound "Room not found")
  | some room =>
    if user.isSome && apiKey.isNone then
      -- JWT user: access allowed, continue
      match user with
      | none => .error (.notFound "Authentication required")
      | some u =>
        let userId : Option String := some u.userId
        let dbUser := s.users.find? (fun x => x.id == u.userId)
        let username :=
          (bodyUsername.or ((dbUser.map (fun x => x.username)).or u.username)).getD
            ("user-" ++ u.userId.take 8)
        .ok (createMessage roomId userId bodyRecipientId username content now s)
    else
      match apiKey with
      | some k =>
        if !hasAccessToRoom room.createdBy (some k) userScopes then
          .error (.forbidden
            "Access denied. You do not have permission to send messages to this room.")
        else
          let userId : Option String := k.userId
          let username := (bodyUsername.or k.name).getD ("api-key-" ++ k.id.take 8)
          .ok (createMessage roomId userId bodyRecipientId username content now s)
      | none => .error (.notFound "Authentication required")

/-- Per-connection session info kept in the gateway registry
(`SocketGateway.connectedClients`). -/
structure ClientInfo where
  userId : Option String
  apiKeyId : Option String
  username : Option String
deriving DecidableEq, Repr

/-- `SocketGateway.handleMessage`, new-format branch
(`src/server/src/socket/socket.gateway.ts`, lines 171-230): resolve a display
name, and when a room is named persist the message via
`RoomsService.createMessage` with the recipient id stored verbatim; no
membership check.  Returns the persisted row, if any, with the new state. -/
def handleMessage (message : String) (payloadUsername room recipientId : Option String)
    (clientInfo : Option ClientInfo) (clientId : String) (now : Nat) (s : State) :
    Option MessageB × State :=
  let username :=
    (payloadUsername.or ((clientInfo.bind (fun c => c.username)).or
      (clientInfo.bind (fun c => c.apiKeyId)))).getD clientId
  match room with
  | some r =>
    let saved := createMessage r (clientInfo.bind (fun c => c.userId))
      recipientId username message now s
    (some saved.1, saved.2)
  | none => (none, s)

/-- `RoomsService.getRoomMessages` (`rooms.service.ts`, lines 285-341): after
`findOne`, one of three filters depending on `userId`/`includeRecipients`,
ordered by `createdAt` descending, truncated to `limit`.  The SQL sort is
modelled by `List.mergeSort` on the newest-first comparison. -/
def getRoomMessages (roomId : String) (limit : Nat) (userId : Option String)
    (includeRecipients : Bool) (s : State) : Except Err (List MessageB) :=
  match findRoomB s roomId with
  | none => .error (.notFound "Room not found")
  | some _ =>
    let selected : List MessageB :=
      match userId, includeRecipients with
      | some uid, true =>
        s.messagesB.filter (fun m =>
          m.roomId == roomId && (m.userId == some uid || m.recipientId == some uid))
      | some uid, false =>
        s.messagesB.filter (fun m => m.roomId == roomId && m.userId == some uid)
      | none, _ =>
        s.messagesB.filter (fun m => m.roomId == roomId)
    .ok ((selected.mergeSort (fun a b => b.createdAt ≤ a.createdAt)).take limit)

/-- `RoomsController.getRoomMessages` (`rooms.controller.ts`, lines 300-338):
room lookup, api-key access check, default limit 100, effective filter user
`filterUserId || user?.userId || apiKey?.userId`, the `includeRecipients`
flag parsed from its query string, then the service call, reversed to
oldest-first.  The numeric query parameter is modelled as already parsed. -/
def getRoomMessagesEndpoint (roomId : String) (limit : Option Nat)
    (filterUserId : Option String) (includeRecipients : Option String)
    (user : Option JwtUser) (apiKey : Option ApiKey) (userScopes : List String)
    (s : State) : Except Err (List MessageB) :=
  match findRoomB s roomId with
  | none => .error (.notFound "Room not found")
  | some room =>
    if user.isSome && apiKey.isNone then
      let messageLimit := limit.getD 100
      let userId := (filterUserId.or (user.map (fun u => u.userId))).or
        (apiKey.bind (fun k => k.userId))
      let flag := includeRecipients == some "true" || includeRecipients == some "1"
      (getRoomMessages roomId messageLimit userId flag s).map List.reverse
    else
      match apiKey with
      | some k =>
        if !hasAccessToRoom room.createdBy (some k) userScopes then
          .error (.forbidden
            "Access denied. You do not have permission to access messages from this room.")
        else
          let messageLimit := limit.getD 100
          let userId := (filterUserId.or (user.map (fun u => u.userId))).or k.userId
          let flag := includeRecipients == some "true" || includeRecipients == some "1"
          (getRoomMessages roomId messageLimit userId flag s).map List.reverse
      | none =>
        let messageLimit := limit.getD 100
        let userId := filterUserId.or (user.map (fun u => u.userId))
        let flag := includeRecipients == some "true" || includeRecipients == some "1"
        (getRoomMessages roomId messageLimit userId flag s).map List.reverse

/-- `AuthService.revokeApiKey` (`src/server/src/auth/auth.service.ts`,
lines 428-449): key lookup, ownership check when a requesting user id is
supplied, then UPDATE setting `isActive := false`. -/
def revokeApiKey (keyId : String) (userId : Option String) (s : State) :
    Except Err State :=
  match s.apiKeys.find? (fun k => k.id == keyId) with
  | none => .error (.notFound "API key not found")
  | some apiKey =>
    match userId with
    | some uid =>
      if apiKey.userId ≠ some uid then
        .error (.unauthorized "You can only revoke your own API keys")
      else
        .ok { s with apiKeys :=
          s.apiKeys.map (fun k => if k.id == keyId then { k with isActive := false } else k) }
    | none =>
      .ok { s with apiKeys :=
        s.apiKeys.map (fun k => if k.id == keyId then { k with isActive := false } else k) }

/-- Membership-manager calls, for reasoning about arbitrary call sequences.
Each call carries the arguments of the corresponding service method; `now`
stands for the `new Date()` stamp taken during the call. -/
inductive Op where
  | join (roomId userId : String) (now : Nat)
  | leave (roomId userId : String)
  | ban (roomId userId actingId : String) (now : Nat)
  | unban (roomId userId actingId : String)
deriving DecidableEq, Repr

/-- Apply one membership call; a thrown exception leaves the database
unchanged. -/
def stepOp (s : State) (op : Op) : State :=
  match op with
  | .join roomId userId now =>
    match joinRoom roomId userId now s with
    | .ok (_, s') => s'
    | .error _ => s
  | .leave roomId userId =>
    match leaveRoom roomId userId s with
    | .ok (_, s') => s'
    | .error _ => s
  | .ban roomId userId actingId now =>
    match banUser roomId userId actingId now s with
    | .ok (_, s') => s'
    | .error _ => s
  | .unban roomId userId actingId =>
    match unbanUser roomId userId actingId s with
    | .ok (_, s') => s'
    | .error _ => s

/-- Apply a sequence of membership calls. -/
def runOps (s : State) (ops : List Op) : State :=
  ops.foldl stepOp s

/-- Discriminator: did the handler succeed? -/
def resultOk {α : Type} (r : Except Err α) : Bool :=
  match r with
  | .ok _ => true
  | .error _ => false

/-- Discriminator: did the handler throw `ConflictException`? -/
def resultIsConflict {α : Type} (r : Except Err α) : Bool :=
  match r with
  | .error (.conflict _) => true
  | _ => false

/-- Discriminator: did the handler throw `ForbiddenException`? -/
def resultIsForbidden {α : Type} (r : Except Err α) : Bool :=
  match r with
  | .error (.forbidden _) => true
  | _ => false

/-- Number of support-chat message rows in the state a handler returned
(0 when it threw, since a throw commits nothing). -/
def messagesBCount (r : Except Err (MessageB × State)) : Nat :=
  match r with
  | .ok (_, s) => s.messagesB.length
  | .error _ => 0

/-- Number of membership-backend message rows in the returned state. -/
def messagesACount (r : Except Err (MessageA × State)) : Nat :=
  match r with
  | .ok (_, s) => s.messagesA.length
  | .error _ => 0

/-- Number of membership rows in the returned state. -/
def membersCount (r : Except Err (RoomMember × State)) : Nat :=
  match r with
  | .ok (_, s) => s.members.length
  | .error _ => 0

/-- C5: for every scope list and required scope X, `hasScope` returns true
exactly when X is in the list or `allow-all` is; in particular `allow-all`
grants every X. -/
theorem hasScope_correct :
    ∀ (scopes : List String) (X : String),
      (hasScope scopes X = true ↔ (X ∈ scopes ∨ ALLOW_ALL ∈ scopes))
      ∧ (ALLOW_ALL ∈ scopes → hasScope scopes X = true) := by
  intro scopes X
  have h : hasScope scopes X = true ↔ (X ∈ scopes ∨ ALLOW_ALL ∈ scopes) := by
    unfold hasScope
    rcases scopes with _ | ⟨a, rest⟩
    · simp
    · by_cases hall : ALLOW_ALL ∈ a :: rest
      · simp [hall]
      · simp [hall]
  exact ⟨h, fun hmem => h.mpr (Or.inr hmem)⟩

/-- Witness for `hasScope_correct` at scopes = [allow-all], X = manage-rooms. -/
theorem hasScope_correct_witness :
    hasScope [ALLOW_ALL] "manage-rooms" = true :=
  (hasScope_correct [ALLOW_ALL] "manage-rooms").2 (by decide)

/-- C9: with an empty scope list, `hasAnyScope` and `hasAllScopes` both deny,
even for an empty requirement list; with a non-empty scope list that lacks
`allow-all`, `hasAllScopes` of an empty requirement list is vacuously true
while `hasAnyScope` of it is false. -/
theorem scope_checks_empty_cases :
    (∀ req : List String, hasAnyScope [] req = false ∧ hasAllScopes [] req = false)
    ∧ (∀ s : List String, s ≠ [] → ALLOW_ALL ∉ s →
        hasAllScopes s [] = true ∧ hasAnyScope s [] = false) := by
  constructor
  · intro req
    constructor <;> rfl
  · intro s hne hall
    constructor
    · unfold hasAllScopes
      simp [hne, hall]
    · unfold hasAnyScope
      simp [hne, hall]

/-- Witness for `scope_checks_empty_cases` at s = [allow-all-chats]. -/
theorem scope_checks_empty_cases_witness :
    hasAllScopes [ALLOW_ALL_CHATS] [] = true ∧ hasAnyScope [ALLOW_ALL_CHATS] [] = false :=
  scope_checks_empty_cases.2 [ALLOW_ALL_CHATS] (by decide) (by decide)

/-- C7: revoking an existing api key on behalf of a requesting identity that
does not own it throws `UnauthorizedException` before the UPDATE runs, so no
new database state is produced and the stored row keeps `isActive = true`. -/
theorem revoke_foreign_apiKey_rejected :
    ∀ (s : State) (keyId uid : String) (k : ApiKey),
      s.apiKeys.find? (fun x => x.id == keyId) = some k →
      k.userId ≠ some uid →
      revokeApiKey keyId (some uid) s =
        .error (.unauthorized "You can only revoke your own API keys")
      ∧ ∀ s', revokeApiKey keyId (some uid) s ≠ .ok s' := by
  intro s keyId uid k hfind hne
  have h : revokeApiKey keyId (some uid) s =
      .error (.unauthorized "You can only revoke your own API keys") := by
    unfold revokeApiKey
    rw [hfind]
    simp [hne]
  exact ⟨h, fun s' hok => by rw [h] at hok; cases hok⟩

/-- Witness state for `revoke_foreign_apiKey_rejected`: one active key owned
by carol, revocation requested by dave. -/
def revokeExState : State :=
  { roomsA := [], members := [], messagesA := [], roomsB := [], messagesB := []
    apiKeys := [{ id := "k1", key := "secret", name := some "bot"
                  userId := some "carol", isActive := true }]
    users := [], nextId := 0 }

/-- Witness for `revoke_foreign_apiKey_rejected`. -/
theorem revoke_foreign_apiKey_rejected_witness :
    revokeApiKey "k1" (some "dave") revokeExState =
      .error (.unauthorized "You can only revoke your own API keys") :=
  (revoke_foreign_apiKey_rejected revokeExState "k1" "dave"
    { id := "k1", key := "secret", name := some "bot"
      userId := some "carol", isActive := true }
    (by decide) (by decide)).1

/-- Uniqueness invariant enforced by the storage-level unique constraint on
`(roomId, userId)` in `room_members` (`schema/index.ts`, `uniqueRoomUser`). -/
def MembersKeyNodup (s : State) : Prop :=
  (s.members.map (fun m => (m.roomId, m.userId))).Nodup

/-- C4: `joinRoom` on an existing room inserts an ACTIVE row when none
exists, lifts a BAN row to ACTIVE, is a no-op returning the existing row when
it is already ACTIVE, and joining a non-existent room throws
`NotFoundException`. -/
theorem joinRoom_transitions :
    ∀ (s : State) (roomId userId : String) (now : Nat),
      (findRoomA s roomId = none →
        joinRoom roomId userId now s = .error (.notFound "Room not found"))
      ∧ ((findRoomA s roomId).isSome →
          (findMember s roomId userId = none →
            ∃ m s', joinRoom roomId userId now s = .ok (m, s')
              ∧ m.roomId = roomId ∧ m.userId = userId ∧ m.status = .ACTIVE
              ∧ s'.members = s.members ++ [m])
          ∧ (∀ m0, findMember s roomId userId = some m0 → m0.status = .BAN →
              ∃ m s', joinRoom roomId userId now s = .ok (m, s')
                ∧ m.roomId = roomId ∧ m.userId = userId ∧ m.status = .ACTIVE
                ∧ s'.members = s.members.map (fun x => if x.id == m0.id then m else x))
          ∧ (∀ m0, findMember s roomId userId = some m0 → m0.status = .ACTIVE →
              joinRoom roomId userId now s = .ok (m0, s))) := by
  intro s roomId userId now
  constructor
  · intro hnone
    unfold joinRoom
    rw [hnone]
  · intro hsome
    obtain ⟨room, hroom⟩ := Option.isSome_iff_exists.mp hsome
    refine ⟨?_, ?_, ?_⟩
    · intro hmem
      unfold joinRoom
      rw [hroom, hmem]
      exact ⟨_, _, rfl, rfl, rfl, rfl, rfl⟩
    · intro m0 hmem hban
      have hkey := List.find?_some hmem
      have hkey' : m0.roomId = roomId ∧ m0.userId = userId := by
        simpa [Bool.and_eq_true, beq_iff_eq] using hkey
      unfold joinRoom
      rw [hroom, hmem]
      simp only [hban, if_pos]
      exact ⟨_, _, rfl, hkey'.1, hkey'.2, rfl, rfl⟩
    · intro m0 hmem hact
      unfold joinRoom
      rw [hroom, hmem]
      simp [hact]

/-- Witness state for `joinRoom_transitions`: room r1 owned by alice with bob
already ACTIVE. -/
def joinExState : State :=
  { roomsA := [{ id := "r1", name := "general", ownerId := "alice", isActive := true }]
    members := [{ id := 0, roomId := "r1", userId := "bob"
                  status := .ACTIVE, joinedIn := 0 }]
    messagesA := [], roomsB := [], messagesB := [], apiKeys := [], users := []
    nextId := 1 }

/-- Witness for `joinRoom_transitions`: rejoining while ACTIVE is a no-op. -/
theorem joinRoom_transitions_witness :
    joinRoom "r1" "bob" 9 joinExState =
      .ok ({ id := 0, roomId := "r1", userId := "bob"
             status := .ACTIVE, joinedIn := 0 }, joinExState) :=
  ((joinRoom_transitions joinExState "r1" "bob" 9).2 (by decide)).2.2
    { id := 0, roomId := "r1", userId := "bob", status := .ACTIVE, joinedIn := 0 }
    (by decide) (by decide)

/-- C8: on an existing room, `leaveRoom` of an identity with no membership
row throws `NotFoundException` (the DELETE matched nothing, so nothing
changed), and with a row present — ACTIVE or BANNED — it deletes exactly that
row: the row is gone, every other row survives, nothing is added. -/
theorem leaveRoom_spec :
    ∀ (s : State) (roomId userId : String),
      (findRoomA s roomId).isSome →
      (findMember s roomId userId = none →
        leaveRoom roomId userId s = .error (.notFound "User is not a member of this room"))
      ∧ (MembersKeyNodup s →
         ∀ m0, findMember s roomId userId = some m0 →
          ∃ s', leaveRoom roomId userId s = .ok (m0, s')
            ∧ m0 ∉ s'.members
            ∧ (∀ x ∈ s.members, x ≠ m0 → x ∈ s'.members)
            ∧ (∀ x ∈ s'.members, x ∈ s.members)) := by
  intro s roomId userId hsome
  obtain ⟨room, hroom⟩ := Option.isSome_iff_exists.mp hsome
  constructor
  · intro hmem
    unfold leaveRoom
    rw [hroom, hmem]
  · intro hnodup m0 hmem
    have hkey := List.find?_some hmem
    have hkey' : m0.roomId = roomId ∧ m0.userId = userId := by
      simpa [Bool.and_eq_true, beq_iff_eq] using hkey
    have hm0mem : m0 ∈ s.members := List.mem_of_find?_eq_some hmem
    unfold leaveRoom
    rw [hroom, hmem]
    refine ⟨_, rfl, ?_, ?_, ?_⟩
    · intro hcontra
      have := (List.mem_filter.mp hcontra).2
      simp [hkey'.1, hkey'.2] at this
    · intro x hx hxne
      refine List.mem_filter.mpr ⟨hx, ?_⟩
      cases hcase : (x.roomId == roomId && x.userId == userId) with
      | false => simp
      | true =>
        exfalso
        simp only [Bool.and_eq_true, beq_iff_eq] at hcase
        exact hxne (List.inj_on_of_nodup_map hnodup hx hm0mem (by
          simp [hcase.1, hcase.2, hkey'.1, hkey'.2]))
    · intro x hx
      exact (List.mem_filter.mp hx).1

/-- Witness for `leaveRoom_spec`: dave holds no membership row in r1. -/
theorem leaveRoom_spec_witness :
    leaveRoom "r1" "dave" joinExState =
      .error (.notFound "User is not a member of this room") :=
  (leaveRoom_spec joinExState "r1" "dave" (by decide)).1 (by decide)

/-- C6: a message persisted in a room with recipient R and a different
author, when the room messages are fetched through the endpoint with
`includeRecipients=true` and `userId=R`, appears in the response (when the
recipient-filtered selection fits the requested limit); fetched with
`userId=w` for a third party w — neither author nor recipient — it never
appears.  The fetching principal is a JWT user, which passes the room-access
gate. -/
theorem recipient_message_visibility :
    ∀ (s : State) (roomId R w u : String) (m : MessageB) (lim : Nat) (viewer : JwtUser),
      m ∈ s.messagesB → m.roomId = roomId →
      m.recipientId = some R → m.userId = some u → u ≠ R →
      (findRoomB s roomId).isSome →
      (((s.messagesB.filter (fun x =>
          x.roomId == roomId && (x.userId == some R || x.recipientId == some R))).length ≤ lim →
        ∀ out, getRoomMessagesEndpoint roomId (some lim) (some R) (some "true")
            (some viewer) none [] s = .ok out → m ∈ out)
      ∧ (w ≠ u → w ≠ R →
        ∀ out, getRoomMessagesEndpoint roomId (some lim) (some w) (some "true")
            (some viewer) none [] s = .ok out → m ∉ out)) := by
  intro s roomId R w u m lim viewer hm hroomId hrec hauthor hne hsome
  obtain ⟨room, hroom⟩ := Option.isSome_iff_exists.mp hsome
  have hend : ∀ uid : String,
      getRoomMessagesEndpoint roomId (some lim) (some uid) (some "true")
        (some viewer) none [] s =
      .ok (((s.messagesB.filter (fun x =>
          x.roomId == roomId && (x.userId == some uid || x.recipientId == some uid))).mergeSort
            (fun a b => b.createdAt ≤ a.createdAt)).take lim).reverse := by
    intro uid
    unfold getRoomMessagesEndpoint
    rw [hroom]
    simp only [Option.isSome_some, Option.isNone_none, Bool.and_self, if_true]
    unfold getRoomMessages
    rw [hroom]
    simp [Option.or, Except.map]
  constructor
  · intro hlen out hout
    rw [hend R] at hout
    simp only [Except.ok.injEq] at hout
    subst hout
    have hfilt : m ∈ s.messagesB.filter (fun x =>
        x.roomId == roomId && (x.userId == some R || x.recipientId == some R)) :=
      List.mem_filter.mpr ⟨hm, by simp [hroomId, hrec]⟩
    have hsorted : m ∈ (s.messagesB.filter (fun x =>
        x.roomId == roomId && (x.userId == some R || x.recipientId == some R))).mergeSort
          (fun a b => b.createdAt ≤ a.createdAt) := List.mem_mergeSort.mpr hfilt
    rw [List.take_of_length_le (by rw [List.length_mergeSort]; exact hlen)]
    exact List.mem_reverse.mpr hsorted
  · intro hwu hwR out hout hcontra
    rw [hend w] at hout
    cases hout
    have h1 := List.mem_reverse.mp hcontra
    have h2 := (List.take_sublist _ _).mem h1
    have h3 := List.mem_mergeSort.mp h2
    have h4 := (List.mem_filter.mp h3).2
    simp only [Bool.and_eq_true, Bool.or_eq_true, beq_iff_eq] at h4
    rcases h4.2 with h | h
    · rw [hauthor] at h
      injection h with h
      exact hwu h.symm
    · rw [hrec] at h
      injection h with h
      exact hwR h.symm

/-- Witness state for `recipient_message_visibility`: a support room r1 with
one message from ulrich addressed to rachel. -/
def c6State : State :=
  { roomsA := [], members := [], messagesA := []
    roomsB := [{ id := "r1", name := "sup", type := "support"
                 isPrivate := false, createdBy := some "alice" }]
    messagesB := [{ id := 0, roomId := "r1", userId := some "ulrich"
                    recipientId := some "rachel", username := "ulrich"
                    content := "hi", createdAt := 5 }]
    apiKeys := [], users := [], nextId := 1 }

/-- Witness for `recipient_message_visibility`: rachel sees the message,
wendy does not. -/
theorem recipient_message_visibility_witness :
    ({ id := 0, roomId := "r1", userId := some "ulrich"
       recipientId := some "rachel", username := "ulrich"
       content := "hi", createdAt := 5 } : MessageB) ∈
        [({ id := 0, roomId := "r1", userId := some "ulrich"
            recipientId := some "rachel", username := "ulrich"
            content := "hi", createdAt := 5 } : MessageB)]
    ∧ ({ id := 0, roomId := "r1", userId := some "ulrich"
         recipientId := some "rachel", username := "ulrich"
         content := "hi", createdAt := 5 } : MessageB) ∉ ([] : List MessageB) :=
  ⟨(recipient_message_visibility c6State "r1" "rachel" "wendy" "ulrich"
      { id := 0, roomId := "r1", userId := some "ulrich"
        recipientId := some "rachel", username := "ulrich"
        content := "hi", createdAt := 5 } 10 { userId := "alice", username := none }
      (by decide) rfl rfl rfl (by decide) (by decide)).1 (by decide) _
      (by simp [getRoomMessagesEndpoint, getRoomMessages, findRoomB, c6State, Option.or,
        List.mergeSort, Except.map, List.filter, List.find?]),
   (recipient_message_visibility c6State "r1" "rachel" "wendy" "ulrich"
      { id := 0, roomId := "r1", userId := some "ulrich"
        recipientId := some "rachel", username := "ulrich"
        content := "hi", createdAt := 5 } 10 { userId := "alice", username := none }
      (by decide) rfl rfl rfl (by decide) (by decide)).2 (by decide) (by decide) _
      (by simp [getRoomMessagesEndpoint, getRoomMessages, findRoomB, c6State, Option.or,
        List.mergeSort, Except.map, List.filter, List.find?])⟩

/-- C10: a history fetch by a JWT user with no limit parameter runs the
internal query with the default limit 100 and returns its reversal; any
internal query result holds at most 100 rows and is ordered newest-first;
and for the unfiltered room query, every room message left out is no newer
than every row returned. -/
theorem default_limit_history :
    ∀ (s : State) (roomId : String) (uid : Option String) (flag : Bool)
      (viewer : JwtUser) (internal : List MessageB),
      (getRoomMessagesEndpoint roomId none none none (some viewer) none [] s =
        (getRoomMessages roomId 100 (some viewer.userId) false s).map List.reverse)
      ∧ (getRoomMessages roomId 100 uid flag s = .ok internal →
          internal.length ≤ 100
          ∧ List.Pairwise (fun a b => b.createdAt ≤ a.createdAt) internal)
      ∧ (getRoomMessages roomId 100 none flag s = .ok internal →
          ∀ x ∈ s.messagesB, x.roomId = roomId → x ∉ internal →
            ∀ y ∈ internal, x.createdAt ≤ y.createdAt) := by
  intro s roomId uid flag viewer internal
  have htrans : ∀ a b c : MessageB,
      (fun a b : MessageB => decide (b.createdAt ≤ a.createdAt)) a b = true →
      (fun a b : MessageB => decide (b.createdAt ≤ a.createdAt)) b c = true →
      (fun a b : MessageB => decide (b.createdAt ≤ a.createdAt)) a c = true := by
    intro a b c hab hbc
    simp only [decide_eq_true_eq] at *
    exact le_trans hbc hab
  have htotal : ∀ a b : MessageB,
      ((fun a b : MessageB => decide (b.createdAt ≤ a.createdAt)) a b ||
       (fun a b : MessageB => decide (b.createdAt ≤ a.createdAt)) b a) = true := by
    intro a b
    simp only [Bool.or_eq_true, decide_eq_true_eq]
    exact (Nat.le_total b.createdAt a.createdAt)
  refine ⟨?_, ?_, ?_⟩
  · unfold getRoomMessagesEndpoint
    cases hroom : findRoomB s roomId with
    | none => unfold getRoomMessages; rw [hroom]; rfl
    | some room =>
      simp only [Option.isSome_some, Option.isNone_none, Bool.and_self, if_true]
      simp [Option.or]
  · intro hok
    unfold getRoomMessages at hok
    cases hroom : findRoomB s roomId with
    | none => rw [hroom] at hok; cases hok
    | some room =>
      rw [hroom] at hok
      simp only [Except.ok.injEq] at hok
      subst hok
      have key : ∀ sel : List MessageB,
          List.Pairwise (fun a b : MessageB => b.createdAt ≤ a.createdAt)
            ((sel.mergeSort (fun a b => decide (b.createdAt ≤ a.createdAt))).take 100) := by
        intro sel
        have hs := List.sorted_mergeSort htrans htotal sel
        have hsub := List.Pairwise.sublist (List.take_sublist 100 _) hs
        exact hsub.imp (fun h => decide_eq_true_eq.mp h)
      constructor
      · rw [List.length_take]
        exact min_le_left _ _
      · exact key _
  · intro hok x hx hxr hxnotin y hy
    unfold getRoomMessages at hok
    cases hroom : findRoomB s roomId with
    | none => rw [hroom] at hok; cases hok
    | some room =>
      rw [hroom] at hok
      simp only [Except.ok.injEq] at hok
      have hxsel : x ∈ s.messagesB.filter (fun m => m.roomId == roomId) :=
        List.mem_filter.mpr ⟨hx, by simp [hxr]⟩
      set sorted := (s.messagesB.filter (fun m => m.roomId == roomId)).mergeSort
        (fun a b => decide (b.createdAt ≤ a.createdAt)) with hsorteddef
      have hxms : x ∈ sorted := List.mem_mergeSort.mpr hxsel
      have hsplit : sorted = sorted.take 100 ++ sorted.drop 100 :=
        (List.take_append_drop 100 sorted).symm
      have hsortedall : List.Pairwise
          (fun a b : MessageB => (fun a b : MessageB =>
            decide (b.createdAt ≤ a.createdAt)) a b = true) sorted :=
        List.sorted_mergeSort htrans htotal _
      rw [hsplit] at hxms hsortedall
      have hxdrop : x ∈ sorted.drop 100 := by
        rcases List.mem_append.mp hxms with h | h
        · exfalso; apply hxnotin; rw [← hok]; exact h
        · exact h
      have := (List.pairwise_append.mp hsortedall).2.2 y (by rw [← hok] at hy; exact hy)
        x hxdrop
      exact decide_eq_true_eq.mp this

/-- Witness state for `default_limit_history`: room r1 with two messages at
times 1 and 5. -/
def c10State : State :=
  { roomsA := [], members := [], messagesA := []
    roomsB := [{ id := "r1", name := "general", type := "normal"
                 isPrivate := false, createdBy := none }]
    messagesB := [{ id := 0, roomId := "r1", userId := none, recipientId := none
                    username := "a", content := "first", createdAt := 1 },
                  { id := 1, roomId := "r1", userId := none, recipientId := none
                    username := "b", content := "second", createdAt := 5 }]
    apiKeys := [], users := [], nextId := 2 }

/-- Witness for `default_limit_history`: the internal selection of r1 is the
two messages newest-first, within the default limit. -/
theorem default_limit_history_witness :
    ([{ id := 1, roomId := "r1", userId := none, recipientId := none
        username := "b", content := "second", createdAt := 5 },
      { id := 0, roomId := "r1", userId := none, recipientId := none
        username := "a", content := "first", createdAt := 1 }] : List MessageB).length ≤ 100
    ∧ List.Pairwise (fun a b : MessageB => b.createdAt ≤ a.createdAt)
        [{ id := 1, roomId := "r1", userId := none, recipientId := none
           username := "b", content := "second", createdAt := 5 },
         { id := 0, roomId := "r1", userId := none, recipientId := none
           username := "a", content := "first", createdAt := 1 }] :=
  (default_limit_history c10State "r1" none false { userId := "alice", username := none }
    [{ id := 1, roomId := "r1", userId := none, recipientId := none
       username := "b", content := "second", createdAt := 5 },
     { id := 0, roomId := "r1", userId := none, recipientId := none
       username := "a", content := "first", createdAt := 1 }]).2.1
    (by simp [getRoomMessages, findRoomB, c10State, List.mergeSort, List.filter,
      List.find?, List.merge])

/-- State exhibiting C1: room r1 exists in both schema variants, bob holds a
BAN membership row in it, and no message rows exist yet. -/
def c1State : State :=
  { roomsA := [{ id := "r1", name := "general", ownerId := "alice", isActive := true }]
    members := [{ id := 0, roomId := "r1", userId := "bob", status := .BAN, joinedIn := 0 }]
    messagesA := []
    roomsB := [{ id := "r1", name := "general", type := "normal"
                 isPrivate := false, createdBy := some "alice" }]
    messagesB := [], apiKeys := []
    users := [{ id := "alice", username := "alice" }]
    nextId := 1 }

/-- Counterexample to C1: bob's current membership status in r1 is BANNED,
yet his REST `POST /rooms/r1/messages` send as a JWT user succeeds and a
message row is persisted — the controller never consults the membership
table, so the claim that every send path rejects a BANNED sender is false. -/
theorem banned_sender_rest_send_persists_cex :
    getMemberStatus "r1" "bob" c1State = some .BAN
    ∧ resultOk (sendMessage "r1" "hi" none none
        (some { userId := "bob", username := some "bob" }) none [] 7 c1State) = true
    ∧ messagesBCount (sendMessage "r1" "hi" none none
        (some { userId := "bob", username := some "bob" }) none [] 7 c1State) = 1
    ∧ c1State.messagesB.length = 0 := by
  refine ⟨rfl, rfl, rfl, rfl⟩

/-- C1 as amended: only `MessagesService.create` gates on membership — a
sender whose current status is BANNED gets `ForbiddenException` and nothing
is persisted there; the REST `POST /rooms/{id}/messages` handler and the
socket `message` handler perform no membership check and persist the message
even when the sender's current status in the target room is BANNED. -/
theorem banned_sender_gating_amended :
    (∀ (s : State) (roomId userId content : String),
      (findRoomA s roomId).isSome →
      getMemberStatus roomId userId s = some .BAN →
      messagesCreate roomId userId content s = .error (.forbidden
        "You cannot send messages to this room. You may be banned or not a member."))
    ∧ (∀ (s : State) (roomId content : String) (bu br : Option String)
        (u : JwtUser) (now : Nat),
      (findRoomB s roomId).isSome →
      getMemberStatus roomId u.userId s = some .BAN →
      ∃ m s', sendMessage roomId content bu br (some u) none [] now s = .ok (m, s')
        ∧ s'.messagesB = s.messagesB ++ [m])
    ∧ (∀ (s : State) (r message clientId : String) (pu rec : Option String)
        (ci : Option ClientInfo) (now : Nat),
      getMemberStatus r ((ci.bind (fun c => c.userId)).getD "") s = some .BAN →
      ∃ m, (handleMessage message pu (some r) rec ci clientId now s).1 = some m
        ∧ (handleMessage message pu (some r) rec ci clientId now s).2.messagesB =
            s.messagesB ++ [m]) := by
  refine ⟨?_, ?_, ?_⟩
  · intro s roomId userId content hroom hban
    obtain ⟨room, hr⟩ := Option.isSome_iff_exists.mp hroom
    unfold messagesCreate
    rw [hr]
    simp [canSendMessage, hban]
  · intro s roomId content bu br u now hroom hban
    obtain ⟨room, hr⟩ := Option.isSome_iff_exists.mp hroom
    unfold sendMessage
    rw [hr]
    simp only [Option.isSome_some, Option.isNone_none, Bool.and_self, if_true]
    exact ⟨_, _, rfl, rfl⟩
  · intro s r message clientId pu rec ci now hban
    unfold handleMessage
    exact ⟨_, rfl, rfl⟩

/-- Witness for `banned_sender_gating_amended`: in `c1State` the gated
service path rejects banned bob. -/
theorem banned_sender_gating_amended_witness :
    messagesCreate "r1" "bob" "hi" c1State = .error (.forbidden
      "You cannot send messages to this room. You may be banned or not a member.") :=
  banned_sender_gating_amended.1 c1State "r1" "bob" "hi" (by decide) (by decide)

/-- State exhibiting C3: room r2 is deactivated (`isActive = false`), carol
is an ACTIVE member, bob holds no row. -/
def c3State : State :=
  { roomsA := [{ id := "r2", name := "archived", ownerId := "alice", isActive := false }]
    members := [{ id := 0, roomId := "r2", userId := "carol"
                  status := .ACTIVE, joinedIn := 0 }]
    messagesA := [], roomsB := [], messagesB := [], apiKeys := [], users := []
    nextId := 1 }

/-- Counterexample to C3: room r2 has `isActive = false`, yet `joinRoom`
admits bob (a membership row is produced) and `MessagesService.create`
persists a message from carol — neither operation inspects the active
flag. -/
theorem inactive_room_accepts_cex :
    ((findRoomA c3State "r2").map (fun r => r.isActive)) = some false
    ∧ resultOk (joinRoom "r2" "bob" 3 c3State) = true
    ∧ membersCount (joinRoom "r2" "bob" 3 c3State) = 2
    ∧ resultOk (messagesCreate "r2" "carol" "hello" c3State) = true
    ∧ messagesACount (messagesCreate "r2" "carol" "hello" c3State) = 1
    ∧ c3State.members.length = 1
    ∧ c3State.messagesA.length = 0 := by
  refine ⟨rfl, rfl, rfl, rfl, rfl, rfl, rfl⟩

/-- C3 as amended: `joinRoom` and `MessagesService.create` check only that
the room row exists, never its active flag — a room with `isActive = false`
still accepts a fresh join (an ACTIVE row is inserted) and still accepts a
message from an ACTIVE member (a message row is persisted). -/
theorem inactive_room_amended :
    ∀ (s : State) (roomId userId content : String) (now : Nat) (room : RoomA),
      findRoomA s roomId = some room →
      room.isActive = false →
      (findMember s roomId userId = none →
        ∃ m s', joinRoom roomId userId now s = .ok (m, s')
          ∧ m.status = .ACTIVE ∧ s'.members = s.members ++ [m])
      ∧ (getMemberStatus roomId userId s = some .ACTIVE →
        ∃ m s', messagesCreate roomId userId content s = .ok (m, s')
          ∧ s'.messagesA = s.messagesA ++ [m]) := by
  intro s roomId userId content now room hroom hinactive
  constructor
  · intro hnone
    unfold joinRoom
    rw [hroom, hnone]
    exact ⟨_, _, rfl, rfl, rfl⟩
  · intro hactive
    unfold messagesCreate
    rw [hroom]
    simp only [canSendMessage, hactive]
    exact ⟨_, _, rfl, rfl⟩

/-- Witness for `inactive_room_amended` at `c3State`. -/
theorem inactive_room_amended_witness :
    resultOk (joinRoom "r2" "bob" 3 c3State) = true
    ∧ resultOk (messagesCreate "r2" "carol" "hello" c3State) = true := by
  have h := inactive_room_amended c3State "r2" "bob" "hello" 3
    { id := "r2", name := "archived", ownerId := "alice", isActive := false }
    (by decide) (by decide)
  have h2 := inactive_room_amended c3State "r2" "carol" "hello" 3
    { id := "r2", name := "archived", ownerId := "alice", isActive := false }
    (by decide) (by decide)
  obtain ⟨m, s', hj, -, -⟩ := h.1 (by decide)
  obtain ⟨m2, s2, hc, -⟩ := h2.2 (by decide)
  rw [hj, hc]
  exact ⟨rfl, rfl⟩

/-- Primary-key uniqueness of the `rooms` table of the membership backend
(uuid primary key in `schema/index.ts`). -/
def RoomIdsNodup (s : State) : Prop :=
  (s.roomsA.map (fun r => r.id)).Nodup

/-- Invariant of C2: no membership row held by the owner of its room carries
BAN status. -/
def OwnerNotBanned (s : State) : Prop :=
  ∀ m ∈ s.members, ∀ r ∈ s.roomsA, m.roomId = r.id → m.userId = r.ownerId →
    m.status ≠ .BAN

/-- Every membership row after a successful `joinRoom` is either an old row
or has a non-BAN status; rooms are untouched. -/
theorem joinRoom_ok_shape :
    ∀ (roomId userId : String) (now : Nat) (s : State) (m : RoomMember) (s' : State),
      joinRoom roomId userId now s = .ok (m, s') →
      s'.roomsA = s.roomsA
      ∧ ∀ x ∈ s'.members, x ∈ s.members ∨ x.status ≠ .BAN := by
  intro roomId userId now s m s' h
  unfold joinRoom at h
  split at h
  · cases h
  · split at h
    · rename_i m0 hmem
      split at h
      · rename_i hst
        simp only [Except.ok.injEq, Prod.mk.injEq] at h
        obtain ⟨hm, hs⟩ := h
        subst hs
        refine ⟨rfl, ?_⟩
        intro x hx
        obtain ⟨a, ha, hax⟩ := List.mem_map.mp hx
        by_cases hid : (a.id == m0.id)
        · rw [if_pos hid] at hax
          right
          rw [← hax]
          simp
        · rw [if_neg hid] at hax
          exact Or.inl (hax ▸ ha)
      · simp only [Except.ok.injEq, Prod.mk.injEq] at h
        obtain ⟨hm, hs⟩ := h
        subst hs
        exact ⟨rfl, fun x hx => Or.inl hx⟩
    · simp only [Except.ok.injEq, Prod.mk.injEq] at h
      obtain ⟨hm, hs⟩ := h
      subst hs
      refine ⟨rfl, ?_⟩
      intro x hx
      rcases List.mem_append.mp hx with hx | hx
      · exact Or.inl hx
      · right
        simp only [List.mem_singleton] at hx
        subst hx
        simp

/-- A successful `leaveRoom` only removes membership rows. -/
theorem leaveRoom_ok_shape :
    ∀ (roomId userId : String) (s : State) (m : RoomMember) (s' : State),
      leaveRoom roomId userId s = .ok (m, s') →
      s'.roomsA = s.roomsA ∧ ∀ x ∈ s'.members, x ∈ s.members := by
  intro roomId userId s m s' h
  unfold leaveRoom at h
  split at h
  · cases h
  · split at h
    · cases h
    · simp only [Except.ok.injEq, Prod.mk.injEq] at h
      obtain ⟨hm, hs⟩ := h
      subst hs
      exact ⟨rfl, fun x hx => (List.mem_filter.mp hx).1⟩

/-- Every membership row after a successful `unbanUser` is either an old row
or has a non-BAN status. -/
theorem unbanUser_ok_shape :
    ∀ (roomId userId unbannedBy : String) (s : State) (m : RoomMember) (s' : State),
      unbanUser roomId userId unbannedBy s = .ok (m, s') →
      s'.roomsA = s.roomsA
      ∧ ∀ x ∈ s'.members, x ∈ s.members ∨ x.status ≠ .BAN := by
  intro roomId userId unbannedBy s m s' h
  unfold unbanUser at h
  split at h
  · cases h
  · split at h
    · cases h
    · split at h
      · cases h
      · rename_i m0 hmem
        split at h
        · cases h
        · simp only [Except.ok.injEq, Prod.mk.injEq] at h
          obtain ⟨hm, hs⟩ := h
          subst hs
          refine ⟨rfl, ?_⟩
          intro x hx
          obtain ⟨a, ha, hax⟩ := List.mem_map.mp hx
          by_cases hid : (a.id == m0.id)
          · rw [if_pos hid] at hax
            right
            rw [← hax]
            simp
          · rw [if_neg hid] at hax
            exact Or.inl (hax ▸ ha)

/-- Every membership row after a successful `banUser` is either an old row or
belongs to a stored room whose owner it is not — the two owner guards ran
before any write. -/
theorem banUser_ok_shape :
    ∀ (roomId userId bannedBy : String) (now : Nat) (s : State) (m : RoomMember) (s' : State),
      banUser roomId userId bannedBy now s = .ok (m, s') →
      s'.roomsA = s.roomsA
      ∧ ∀ x ∈ s'.members, x ∈ s.members ∨
          ∃ r0 ∈ s.roomsA, x.roomId = r0.id ∧ x.userId ≠ r0.ownerId := by
  intro roomId userId bannedBy now s m s' h
  unfold banUser at h
  split at h
  · cases h
  · rename_i room hroomfind
    have hroomfind' : s.roomsA.find? (fun r => r.id == roomId) = some room := hroomfind
    have hroommem : room ∈ s.roomsA := List.mem_of_find?_eq_some hroomfind'
    have hroomid : room.id = roomId := by
      have hpred := List.find?_some hroomfind'
      simpa [beq_iff_eq] using hpred
    split at h
    · cases h
    · rename_i hownercall
      split at h
      · cases h
      · rename_i howner
        split at h
        · rename_i hmem
          simp only [Except.ok.injEq, Prod.mk.injEq] at h
          obtain ⟨hm, hs⟩ := h
          subst hs
          refine ⟨rfl, ?_⟩
          intro x hx
          rcases List.mem_append.mp hx with hx | hx
          · exact Or.inl hx
          · right
            simp only [List.mem_singleton] at hx
            subst hx
            exact ⟨room, hroommem, by simp [hroomid], fun hcon => howner hcon⟩
        · rename_i m0 hmem
          have hkey := List.find?_some hmem
          have hkey' : m0.roomId = roomId ∧ m0.userId = userId := by
            simpa [Bool.and_eq_true, beq_iff_eq] using hkey
          simp only [Except.ok.injEq, Prod.mk.injEq] at h
          obtain ⟨hm, hs⟩ := h
          subst hs
          refine ⟨rfl, ?_⟩
          intro x hx
          obtain ⟨a, ha, hax⟩ := List.mem_map.mp hx
          by_cases hid : (a.id == m0.id)
          · rw [if_pos hid] at hax
            right
            refine ⟨room, hroommem, ?_, ?_⟩
            · rw [← hax]
              simp [hkey'.1, hroomid]
            · rw [← hax]
              simp only
              rw [hkey'.2]
              exact fun hcon => howner hcon
          · rw [if_neg hid] at hax
            exact Or.inl (hax ▸ ha)

/-- Transfer principle: an operation that only keeps old rows, writes non-BAN
rows, or writes rows that are not owner rows of their (unique) room,
preserves the owner-not-banned invariant. -/
theorem ownerNotBanned_preserved_of_rows :
    ∀ (s s' : State), s'.roomsA = s.roomsA → RoomIdsNodup s → OwnerNotBanned s →
      (∀ x ∈ s'.members, x ∈ s.members ∨ x.status ≠ .BAN ∨
        ∃ r0 ∈ s.roomsA, x.roomId = r0.id ∧ x.userId ≠ r0.ownerId) →
      OwnerNotBanned s' := by
  intro s s' hrooms hnodup hinv hrows m hm r hr hmr hmo
  rw [hrooms] at hr
  rcases hrows m hm with hold | hstat | ⟨r0, hr0, hrid, hown⟩
  · exact hinv m hold r hr hmr hmo
  · exact hstat
  · intro hban
    have hreq : r = r0 := List.inj_on_of_nodup_map hnodup hr hr0 (by
      rw [← hmr, ← hrid])
    exact hown (hreq ▸ hmo)

/-- One membership-manager call preserves room-id uniqueness and the
owner-not-banned invariant. -/
theorem stepOp_preserves :
    ∀ (s : State) (op : Op), RoomIdsNodup s → OwnerNotBanned s →
      RoomIdsNodup (stepOp s op) ∧ OwnerNotBanned (stepOp s op) := by
  intro s op hnodup hinv
  cases op with
  | join roomId userId now =>
    cases hres : joinRoom roomId userId now s with
    | error e =>
      simp only [stepOp, hres]
      exact ⟨hnodup, hinv⟩
    | ok p =>
      obtain ⟨m, s'⟩ := p
      obtain ⟨hrooms, hrows⟩ := joinRoom_ok_shape roomId userId now s m s' hres
      simp only [stepOp, hres]
      refine ⟨?_, ?_⟩
      · unfold RoomIdsNodup
        rw [hrooms]
        exact hnodup
      · exact ownerNotBanned_preserved_of_rows s s' hrooms hnodup hinv
          (fun x hx => (hrows x hx).imp id Or.inl)
  | leave roomId userId =>
    cases hres : leaveRoom roomId userId s with
    | error e =>
      simp only [stepOp, hres]
      exact ⟨hnodup, hinv⟩
    | ok p =>
      obtain ⟨m, s'⟩ := p
      obtain ⟨hrooms, hrows⟩ := leaveRoom_ok_shape roomId userId s m s' hres
      simp only [stepOp, hres]
      refine ⟨?_, ?_⟩
      · unfold RoomIdsNodup
        rw [hrooms]
        exact hnodup
      · exact ownerNotBanned_preserved_of_rows s s' hrooms hnodup hinv
          (fun x hx => Or.inl (hrows x hx))
  | ban roomId userId actingId now =>
    cases hres : banUser roomId userId actingId now s with
    | error e =>
      simp only [stepOp, hres]
      exact ⟨hnodup, hinv⟩
    | ok p =>
      obtain ⟨m, s'⟩ := p
      obtain ⟨hrooms, hrows⟩ := banUser_ok_shape roomId userId actingId now s m s' hres
      simp only [stepOp, hres]
      refine ⟨?_, ?_⟩
      · unfold RoomIdsNodup
        rw [hrooms]
        exact hnodup
      · exact ownerNotBanned_preserved_of_rows s s' hrooms hnodup hinv
          (fun x hx => (hrows x hx).imp id (fun h => Or.inr h))
  | unban roomId userId actingId =>
    cases hres : unbanUser roomId userId actingId s with
    | error e =>
      simp only [stepOp, hres]
      exact ⟨hnodup, hinv⟩
    | ok p =>
      obtain ⟨m, s'⟩ := p
      obtain ⟨hrooms, hrows⟩ := unbanUser_ok_shape roomId userId actingId s m s' hres
      simp only [stepOp, hres]
      refine ⟨?_, ?_⟩
      · unfold RoomIdsNodup
        rw [hrooms]
        exact hnodup
      · exact ownerNotBanned_preserved_of_rows s s' hrooms hnodup hinv
          (fun x hx => (hrows x hx).imp id Or.inl)

/-- Any call sequence preserves room-id uniqueness and the owner-not-banned
invariant. -/
theorem runOps_preserves :
    ∀ (ops : List Op) (s : State), RoomIdsNodup s → OwnerNotBanned s →
      RoomIdsNodup (runOps s ops) ∧ OwnerNotBanned (runOps s ops) := by
  intro ops
  induction ops with
  | nil =>
    intro s h1 h2
    exact ⟨h1, h2⟩
  | cons op rest ih =>
    intro s h1 h2
    have h := stepOp_preserves s op h1 h2
    simpa [runOps, List.foldl] using ih (stepOp s op) h.1 h.2

/-- C2 as amended: over every reachable state (room table with unique ids,
owner nowhere BANNED) and every sequence of join/leave/ban/unban calls, the
room creator is never BANNED; `banUser` aimed at the room creator always
fails before any write — with `ConflictException` when the caller is the
creator, and with `ForbiddenException` (the owner-only authorization guard
fires first) when the caller is anyone else. -/
theorem owner_never_banned_amended :
    (∀ (s : State) (ops : List Op), RoomIdsNodup s → OwnerNotBanned s →
      OwnerNotBanned (runOps s ops))
    ∧ (∀ (s : State) (roomId userId actingId : String) (now : Nat) (room : RoomA),
        findRoomA s roomId = some room → userId = room.ownerId →
        (∀ res, banUser roomId userId actingId now s ≠ .ok res)
        ∧ (actingId = room.ownerId →
            banUser roomId userId actingId now s =
              .error (.conflict "Cannot ban room owner"))
        ∧ (actingId ≠ room.ownerId →
            banUser roomId userId actingId now s =
              .error (.forbidden "Only room owner can ban users"))) := by
  constructor
  · intro s ops h1 h2
    exact (runOps_preserves ops s h1 h2).2
  · intro s roomId userId actingId now room hfind hu
    refine ⟨?_, ?_, ?_⟩
    · intro res hok
      by_cases hact : room.ownerId ≠ actingId
      · simp only [banUser, hfind, if_pos hact] at hok
        cases hok
      · simp only [banUser, hfind, if_neg hact, if_pos hu] at hok
        cases hok
    · intro hact
      simp only [banUser, hfind]
      rw [if_neg (not_not_intro hact.symm), if_pos hu]
    · intro hact
      simp only [banUser, hfind]
      rw [if_pos (Ne.symm hact)]

/-- State exhibiting the C2 counterexample: room r1 owned by alice, no
memberships. -/
def c2State : State :=
  { roomsA := [{ id := "r1", name := "general", ownerId := "alice", isActive := true }]
    members := [], messagesA := [], roomsB := [], messagesB := [], apiKeys := []
    users := [], nextId := 0 }

/-- Counterexample to C2 as stated: `banUser` with the target equal to the
room creator but called by bob (not the owner) raises `ForbiddenException`,
not `ConflictException` — the owner-only guard fires before the
owner-immunity guard. -/
theorem ban_owner_by_nonowner_forbidden_cex :
    banUser "r1" "alice" "bob" 0 c2State =
      .error (.forbidden "Only room owner can ban users")
    ∧ resultIsConflict (banUser "r1" "alice" "bob" 0 c2State) = false := by
  exact ⟨rfl, rfl⟩

/-- Witness for `owner_never_banned_amended`: alice trying to ban herself in
r1 hits the conflict guard. -/
theorem owner_never_banned_amended_witness :
    banUser "r1" "alice" "alice" 0 c2State =
      .error (.conflict "Cannot ban room owner") :=
  (owner_never_banned_amended.2 c2State "r1" "alice" "alice" 0
    { id := "r1", name := "general", ownerId := "alice", isActive := true }
    (by decide) rfl).2.1 rfl

end Chatty
